import Mathlib

/-!
Shallow embedding of the referral → earnings → payout lifecycle engine of
the affiliateos repository (Django/Python source under `src/`).

Money amounts (`DecimalField(max_digits=12, decimal_places=2)`) are modelled
as `Int` (the claims only add, compare with 0 and sum amounts; no rounding is
involved).  Timestamps are opaque `Nat`/`String` parameters supplied by the
caller, standing for `timezone.now()`.  Database rows are lists of records;
an auto-increment primary key is threaded as a counter where a claim needs
row identity.  Fields of the Django models that no claim touches (audit
actors such as `created_by`/`processed_by`, `client_notes`, denormalised
product fields, timeline rows) are not carried; every field and branch that
any claim's behaviour depends on is translated directly from the source.

The `post_save` signal handlers in `payouts/signals.py` are embedded as the
standalone function `handle_payout_processing`; no module in `src/` imports
`payouts.signals` (there is no `apps.py`), so no other embedded operation
invokes it.
-/

namespace AffiliateOS

/-- `Earnings.Status` from `payouts/models.py`. -/
inductive EStatus
  | pending
  | available
  | processing
  | paid
  | cancelled
  deriving DecidableEq, Repr

/-- `Earnings.Source` from `payouts/models.py`. -/
inductive ESource
  | referral
  | bonus
  | promotion
  | other
  deriving DecidableEq, Repr

/-- `Payout.Status` from `payouts/models.py`. -/
inductive PStatus
  | pending
  | processing
  | completed
  | failed
  | cancelled
  deriving DecidableEq, Repr

/-- `Referral.Status` from `referrals_management/models.py`. -/
inductive RStatus
  | pending
  | contacted
  | qualified
  | converted
  | rejected
  deriving DecidableEq, Repr

/-- A row of the `Earnings` model (`payouts/models.py`).  `payout` is the
nullable FK to `Payout` (by its string id), `referral` the nullable
one-to-one FK to `Referral` (by numeric id). -/
structure Earnings where
  eid : Nat
  partner : Nat
  amount : Int
  date : Nat
  source : ESource
  status : EStatus
  notes : String
  referral : Option Nat
  payout : Option String
  deriving DecidableEq, Repr

/-- A row of the `Payout` model (`payouts/models.py`).  `paymentDetails` is
the JSON blob, modelled as a string-keyed dictionary. -/
structure Payout where
  pid : String
  partner : Nat
  amount : Int
  status : PStatus
  paymentMethod : String
  paymentDetails : List (String × String)
  transactionId : Option String
  note : String
  processedDate : Option Nat
  deriving DecidableEq, Repr

/-- A row of the `PayoutReferral` join model (`payouts/models.py`). -/
structure PayoutReferral where
  payout : String
  referral : Nat
  amount : Int
  deriving DecidableEq, Repr

/-- A row of the `Referral` model (`referrals_management/models.py`),
restricted to the fields the lifecycle claims read or write. -/
structure Referral where
  rid : Nat
  partner : Option Nat
  status : RStatus
  potentialCommission : Int
  actualCommission : Option Int
  deriving DecidableEq, Repr

/-- The database state the lifecycle operations act on.  `nextEid` is the
auto-increment primary-key counter of the `Earnings` table. -/
structure St where
  earnings : List Earnings
  referrals : List Referral
  payouts : List Payout
  payoutReferrals : List PayoutReferral
  nextEid : Nat
  deriving DecidableEq, Repr

/-- `Earnings.mark_as_available`: succeeds only from `pending`.  Returns the
saved row and the boolean the Python method returns. -/
def Earnings.markAsAvailable (e : Earnings) : Earnings × Bool :=
  if e.status = EStatus.pending then
    ({ e with status := EStatus.available }, true)
  else (e, false)

/-- `Earnings.mark_as_processing(payout=None)`: succeeds only from
`available`; the payout link is assigned only when an argument is given. -/
def Earnings.markAsProcessing (e : Earnings) (payout : Option String) :
    Earnings × Bool :=
  if e.status = EStatus.available then
    ({ e with
        status := EStatus.processing
        payout := match payout with
          | some p => some p
          | none => e.payout }, true)
  else (e, false)

/-- `Earnings.mark_as_paid`: succeeds only from `processing`. -/
def Earnings.markAsPaid (e : Earnings) : Earnings × Bool :=
  if e.status = EStatus.processing then
    ({ e with status := EStatus.paid }, true)
  else (e, false)

/-- `Earnings.cancel(reason=None)`: the source sets `status = CANCELLED`
unconditionally (no guard on the current status), appends the optional
reason to `notes`, and returns `True`. -/
def Earnings.cancel (e : Earnings) (reason : Option String) :
    Earnings × Bool :=
  ({ e with
      status := EStatus.cancelled
      notes := match reason with
        | some r => e.notes ++ "\nCancellation reason: " ++ r
        | none => e.notes }, true)

/-- `d.get(k)`: first binding of `k` (the dictionaries built below keep keys
unique, mirroring Python `dict`). -/
def dictGet (d : List (String × String)) (k : String) : Option String :=
  (d.find? (fun kv => kv.1 = k)).map (fun kv => kv.2)

/-- `d[k] = v`: replace the binding of `k` if present, else append it. -/
def dictSet (d : List (String × String)) (k v : String) :
    List (String × String) :=
  match d with
  | [] => [(k, v)]
  | kv :: rest =>
      if kv.1 = k then (k, v) :: rest else kv :: dictSet rest k v

/-- Python truthiness of `value.get(field)` for string JSON values: falsy
when the key is absent or the value is the empty string. -/
def blankAt (d : List (String × String)) (f : String) : Bool :=
  match dictGet d f with
  | none => true
  | some v => v = ""

/-- Python truthiness of an optional string (`if transaction_id:`). -/
def strTruthy : Option String → Bool
  | none => false
  | some t => t ≠ ""

/-- `re.sub(r'(?<!^)(?=[A-Z])', '_', s).lower()`: an underscore is inserted
before every uppercase letter except at position 0, then the whole string is
lowercased. -/
def snakeTail (cs : List Char) : List Char :=
  cs.flatMap (fun ch =>
    if ch.isUpper then ['_', ch.toLower] else [ch.toLower])

/-- camelCase → snake_case key normalisation shared by both
`validate_payment_details` implementations in `payouts/serializers.py`. -/
def camelToSnake (s : String) : String :=
  match s.toList with
  | [] => ""
  | c :: rest => String.mk (c.toLower :: snakeTail rest)

/-- `{camel_to_snake(k): v for k, v in value.items()}`: a fresh dict built
by inserting the normalised bindings in order (later duplicates win, as in
a Python dict comprehension). -/
def normalizeDetails (d : List (String × String)) : List (String × String) :=
  d.foldl (fun acc kv => dictSet acc (camelToSnake kv.1) kv.2) []

/-- Save a payout row: overwrite the row whose primary key matches. -/
def savePayout (s : St) (p : Payout) : St :=
  { s with payouts := s.payouts.map (fun q => if q.pid = p.pid then p else q) }

/-- Fetch a payout row by primary key. -/
def getPayout (s : St) (pid : String) : Option Payout :=
  s.payouts.find? (fun p => p.pid = pid)

/-- `Payout.process` (`payouts/models.py`): unconditionally sets status to
`processing` and saves. -/
def payoutProcess (s : St) (p : Payout) : St :=
  savePayout s { p with status := PStatus.processing }

/-- `Payout.complete` (`payouts/models.py`): sets status `completed`,
`processed_date`, `transaction_id` (even when `None`), saves, then calls
`mark_as_paid` on each earning in `earnings_included` (earnings whose
`payout` FK is this payout) that is in `processing`. -/
def payoutComplete (s : St) (p : Payout) (tid : Option String) (now : Nat) :
    St :=
  let s1 := savePayout s
    { p with status := PStatus.completed, processedDate := some now,
             transactionId := tid }
  { s1 with earnings := s1.earnings.map (fun e =>
      if e.payout = some p.pid ∧ e.status = EStatus.processing then
        { e with status := EStatus.paid } else e) }

/-- `Payout.cancel` (`payouts/models.py`): sets status `cancelled`, appends
the optional reason to `note`, saves, then resets each `earnings_included`
earning that is in `processing` to `available` with `payout = None`. -/
def payoutCancel (s : St) (p : Payout) (reason : Option String) : St :=
  let s1 := savePayout s
    { p with status := PStatus.cancelled,
             note := match reason with
               | some r => p.note ++ "\nCancellation reason: " ++ r
               | none => p.note }
  { s1 with earnings := s1.earnings.map (fun e =>
      if e.payout = some p.pid ∧ e.status = EStatus.processing then
        { e with status := EStatus.available, payout := none } else e) }

/-- `Payout.fail` (`payouts/models.py`): sets status `failed`, appends the
error message to `note`, saves.  It does not touch any earning. -/
def payoutFail (s : St) (p : Payout) (msg : String) : St :=
  savePayout s
    { p with status := PStatus.failed,
             note := p.note ++ "\nError: " ++ msg }

/-- `PaymentProcessor.complete_payment` (`services/views.py`): guarded on
`processing`; on success sets status `completed` and `processed_date`,
stores a truthy `transaction_id` inside `payment_details`, saves, and flips
every `processing` earning OF THE PARTNER (no linkage filter) to `paid`. -/
def completePayment (s : St) (p : Payout) (tid : Option String) (now : Nat) :
    Except String St :=
  if p.status ≠ PStatus.processing then
    Except.error "Only processing payouts can be completed"
  else
    let det :=
      if strTruthy tid then
        dictSet p.paymentDetails "transaction_id" (tid.getD "")
      else p.paymentDetails
    let p' :=
      { p with
          status := PStatus.completed
          processedDate := some now
          paymentDetails := det }
    let s1 := savePayout s p'
    Except.ok { s1 with earnings := s1.earnings.map (fun e =>
      if e.partner = p.partner ∧ e.status = EStatus.processing then
        { e with status := EStatus.paid } else e) }

/-- `PaymentProcessor.fail_payment` (`services/views.py`): no status guard;
sets status `failed`, records the error message and a `failed_at` stamp in
`payment_details`, saves, and returns every `processing` earning OF THE
PARTNER to `available` — without clearing the `payout` link. -/
def failPayment (s : St) (p : Payout) (msg nowIso : String) : St :=
  let p' :=
    { p with
        status := PStatus.failed
        paymentDetails :=
          dictSet (dictSet p.paymentDetails "error" msg) "failed_at" nowIso }
  let s1 := savePayout s p'
  { s1 with earnings := s1.earnings.map (fun e =>
      if e.partner = p.partner ∧ e.status = EStatus.processing then
        { e with status := EStatus.available } else e) }

/-- `handle_payout_processing` (`payouts/signals.py`): the post_save hook
body.  When `created`, every `available` earning of the payout's partner is
flipped to `processing`; then, whenever the payout's status is `completed`,
every `processing` earning of the partner is flipped to `paid` — in both
updates irrespective of which payout (if any) the earning is linked to. -/
def handlePayoutProcessing (s : St) (p : Payout) (created : Bool) : St :=
  let s1 :=
    if created then
      { s with earnings := s.earnings.map (fun e =>
          if e.partner = p.partner ∧ e.status = EStatus.available then
            { e with status := EStatus.processing } else e) }
    else s
  if p.status = PStatus.completed then
    { s1 with earnings := s1.earnings.map (fun e =>
        if e.partner = p.partner ∧ e.status = EStatus.processing then
          { e with status := EStatus.paid } else e) }
  else s1

/-- The reverse accessor `referral.earning` (one-to-one): the earning row
whose `referral` FK is this referral, if any. -/
def earningFor (s : St) (rid : Nat) : Option Earnings :=
  s.earnings.find? (fun e => e.referral = some rid)

/-- `Referral.create_earning`: a no-op (`None`) when an earning already
exists for the referral or the referral has no partner.  Otherwise creates
one `Earnings` with `source='referral'`, `amount=actual_commission` and
`status = 'available' if actual_commission > 0 else 'pending'`.  When
`actual_commission` is `None`, the comparison `None > 0` raises a
`TypeError` which the bare `except` swallows, so no row is created. -/
def createEarning (s : St) (r : Referral) (today : Nat) :
    St × Option Earnings :=
  if s.earnings.any (fun e => e.referral = some r.rid) then (s, none)
  else
    match r.partner with
    | none => (s, none)
    | some p =>
        match r.actualCommission with
        | none => (s, none)
        | some a =>
            let e : Earnings :=
              { eid := s.nextEid, partner := p, amount := a, date := today,
                source := ESource.referral,
                status :=
                  if 0 < a then EStatus.available else EStatus.pending,
                notes := "", referral := some r.rid, payout := none }
            ({ s with earnings := s.earnings ++ [e],
                      nextEid := s.nextEid + 1 }, some e)

/-- The commission-locking step of `Referral.save`:
`if self.status == CONVERTED and not self.actual_commission:
self.actual_commission = self.potential_commission`.  Python truthiness
makes both `None` and `Decimal('0')` pass the `not` test. -/
def lockActualCommission (r : Referral) : Referral :=
  if r.status = RStatus.converted ∧
      (r.actualCommission = none ∨ r.actualCommission = some 0) then
    { r with actualCommission := some r.potentialCommission }
  else r

/-- Persist a referral row (insert or overwrite by id). -/
def saveReferralRow (l : List Referral) (r : Referral) : List Referral :=
  if l.any (fun x => x.rid = r.rid) then
    l.map (fun x => if x.rid = r.rid then r else x)
  else l ++ [r]

/-- `Referral.save`, restricted to the steps the lifecycle claims turn on:
lock `actual_commission` when converted, persist the row, and invoke
`create_earning` whenever the (new) status is `converted`.  The remaining
save steps (partner/referral-code auto-fill, product denormalisation,
expected-implementation-date, `prev_status`/timeline bookkeeping) neither
read nor write any field these claims mention. -/
def referralSave (s : St) (r : Referral) (today : Nat) : St × Referral :=
  let r' := lockActualCommission r
  let s1 := { s with referrals := saveReferralRow s.referrals r' }
  if r'.status = RStatus.converted then ((createEarning s1 r' today).1, r')
  else (s1, r')

/-- `Referral.objects.filter(id__in=referral_ids, status='converted',
earning__status='available').select_related('earning')`: the snapshot of
(referral, linked earning) pairs the creation loop iterates over. -/
def selectReferrals (s : St) (ids : List Nat) :
    List (Referral × Earnings) :=
  s.referrals.filterMap (fun r =>
    if r.rid ∈ ids ∧ r.status = RStatus.converted then
      match earningFor s r.rid with
      | some e =>
          if e.status = EStatus.available then some (r, e) else none
      | none => none
    else none)

/-- The `for referral in referrals:` loop body of
`PayoutCreateSerializer.create`: per selected referral it creates one
`PayoutReferral` carrying the snapshot earning's amount, calls
`earning.mark_as_processing(payout)` (whose guard reads the queryset-cached
`available` status, so the write is unconditional for the selected row) and
accumulates the total. -/
def payoutCreateLoop (earnings : List Earnings) (prs : List PayoutReferral)
    (pid : String) (sel : List (Referral × Earnings)) (total : Int) :
    List Earnings × List PayoutReferral × Int :=
  match sel with
  | [] => (earnings, prs, total)
  | (r, e) :: rest =>
      payoutCreateLoop
        (earnings.map (fun x =>
          if x.eid = e.eid then
            { x with status := EStatus.processing, payout := some pid }
          else x))
        (prs ++ [{ payout := pid, referral := r.rid, amount := e.amount }])
        pid rest (total + e.amount)

/-- `PayoutCreateSerializer.create`: creates the payout with the validated
(client-supplied) `amount`; then, only when `referral_ids` is non-empty
(`if referral_ids:`), runs the selection/loop above and overwrites the
payout's `amount` with the accumulated total.  `pid` stands for the fresh
`PY-…` uuid id generated in `Payout.save`. -/
def payoutCreate (s : St) (partner : Nat) (method : String)
    (details : List (String × String)) (reqAmount : Int) (ids : List Nat)
    (pid : String) : St :=
  let p0 : Payout :=
    { pid := pid, partner := partner, amount := reqAmount,
      status := PStatus.pending, paymentMethod := method,
      paymentDetails := details, transactionId := none, note := "",
      processedDate := none }
  let s0 := { s with payouts := s.payouts ++ [p0] }
  if ids = [] then s0
  else
    -- The payout insert changes no referral or earning row (no signal
    -- receiver is registered by any module in src/), so the post-insert
    -- query reads the same referral/earning rows as `s`.
    let sel := selectReferrals s ids
    let res := payoutCreateLoop s0.earnings s0.payoutReferrals pid sel 0
    { s0 with
        earnings := res.1
        payoutReferrals := res.2.1
        payouts := s.payouts ++ [{ p0 with amount := res.2.2 }] }

/-- The `required_fields` table of
`PayoutCreateSerializer.validate_payment_details`; `none` for a method
string absent from the table. -/
def requiredFields : String → Option (List String)
  | "bank" => some ["account_number", "bank_name", "account_name",
                    "routing_number"]
  | "mpesa" => some ["phone_number"]
  | "paypal" => some ["email"]
  | "stripe" => some ["account_id"]
  | "crypto" => some ["wallet_address", "currency"]
  | _ => none

/-- `PayoutCreateSerializer.validate_payment_details`: normalises the keys,
then — only when the method is in the table — collects EVERY required field
whose value is falsy and rejects with that full list.  A method string not
in the table passes through unvalidated. -/
def createValidateDetails (method : String)
    (d : List (String × String)) :
    Except (String × List String) (List (String × String)) :=
  let v := normalizeDetails d
  match requiredFields method with
  | some req =>
      let missing := req.filter (fun f => blankAt v f)
      if missing = [] then Except.ok v else Except.error (method, missing)
  | none => Except.ok v

/-- The distinct `ValidationError`s raised by
`PayoutSettingSerializer.validate_payment_details`. -/
inductive SettingErr
  | methodMissing
  | paypalEmail
  | bankField (field : String)
  | mpesaPhone
  | stripeAccount
  | cryptoWallet
  | unsupported (method : String)
  deriving DecidableEq, Repr

/-- The field names an error message of the setting validator reports. -/
def SettingErr.fieldsMentioned : SettingErr → List String
  | SettingErr.paypalEmail => ["email"]
  | SettingErr.bankField f => [f]
  | SettingErr.mpesaPhone => ["phone_number"]
  | SettingErr.stripeAccount => ["account_id"]
  | SettingErr.cryptoWallet => ["wallet_address"]
  | _ => []

/-- `PayoutSettingSerializer.validate_payment_details`: normalises the
keys; requires a method; for `bank` it loops over the required fields IN
ORDER and raises at the FIRST falsy one; single-field checks for the other
known methods; raises `unsupported` for anything else. -/
def settingValidateDetails (method : String)
    (d : List (String × String)) :
    Except SettingErr (List (String × String)) :=
  let v := normalizeDetails d
  if method = "" then Except.error SettingErr.methodMissing
  else if method = "paypal" then
    if blankAt v "email" then Except.error SettingErr.paypalEmail
    else Except.ok v
  else if method = "bank" then
    match ["account_name", "account_number", "routing_number",
           "bank_name"].find? (fun f => blankAt v f) with
    | some f => Except.error (SettingErr.bankField f)
    | none => Except.ok v
  else if method = "mpesa" then
    if blankAt v "phone_number" then Except.error SettingErr.mpesaPhone
    else Except.ok v
  else if method = "stripe" then
    if blankAt v "account_id" then Except.error SettingErr.stripeAccount
    else Except.ok v
  else if method = "crypto" then
    if blankAt v "wallet_address" then Except.error SettingErr.cryptoWallet
    else Except.ok v
  else Except.error (SettingErr.unsupported method)

/-- A pending referral-sourced earning. -/
def ePending : Earnings :=
  { eid := 1, partner := 1, amount := 50, date := 0,
    source := ESource.referral, status := EStatus.pending, notes := "",
    referral := some 1, payout := none }

/-- A paid earning. -/
def ePaid : Earnings := { ePending with eid := 2, status := EStatus.paid }

/-- The row `Referral.create_earning` inserts when it fires. -/
def freshEarningRow (s : St) (r : Referral) (today : Nat) (p : Nat)
    (a : Int) : Earnings :=
  { eid := s.nextEid, partner := p, amount := a, date := today,
    source := ESource.referral,
    status := if 0 < a then EStatus.available else EStatus.pending,
    notes := "", referral := some r.rid, payout := none }

/-- A converted referral used to witness C9. -/
def r9 : Referral :=
  { rid := 9, partner := some 1, status := RStatus.converted,
    potentialCommission := 50, actualCommission := some 50 }

/-- An empty database state. -/
def st0 : St :=
  { earnings := [], referrals := [], payouts := [], payoutReferrals := [],
    nextEid := 0 }

/-- A converted referral whose commission converts to zero. -/
def r10 : Referral :=
  { rid := 10, partner := some 1, status := RStatus.converted,
    potentialCommission := 0, actualCommission := none }

/-- Scenario-F input: bank details supplying only `account_number`. -/
def bankOnlyAcct : List (String × String) := [("account_number", "123")]

/-- An earning of partner 3 linked to a different payout than `p3`. -/
def e3 : Earnings :=
  { eid := 31, partner := 3, amount := 10, date := 0,
    source := ESource.referral, status := EStatus.available, notes := "",
    referral := none, payout := some "PY-OTHER" }

/-- A pending payout of partner 3. -/
def p3 : Payout :=
  { pid := "PY-3", partner := 3, amount := 0, status := PStatus.pending,
    paymentMethod := "bank", paymentDetails := [], transactionId := none,
    note := "", processedDate := none }

/-- The one-earning state around `e3`. -/
def s3 : St := { st0 with earnings := [e3] }

/-- An AVAILABLE earning of partner 6, linked to payout `PY-6` both by its
`payout` FK and by a `PayoutReferral` row. -/
def e6 : Earnings :=
  { eid := 61, partner := 6, amount := 50, date := 0,
    source := ESource.referral, status := EStatus.available, notes := "",
    referral := some 61, payout := some "PY-6" }

/-- A processing payout of partner 6. -/
def p6 : Payout :=
  { pid := "PY-6", partner := 6, amount := 50,
    status := PStatus.processing, paymentMethod := "bank",
    paymentDetails := [], transactionId := none, note := "",
    processedDate := none }

/-- The state around `p6`/`e6`, including the `PayoutReferral` link. -/
def s6 : St :=
  { earnings := [e6], referrals := [], payouts := [p6],
    payoutReferrals := [{ payout := "PY-6", referral := 61, amount := 50 }],
    nextEid := 100 }

/-- A PROCESSING earning of partner 7 linked to payout `PY-7`. -/
def e7 : Earnings :=
  { eid := 71, partner := 7, amount := 20, date := 0,
    source := ESource.referral, status := EStatus.processing, notes := "",
    referral := some 71, payout := some "PY-7" }

/-- A processing payout of partner 7. -/
def p7 : Payout :=
  { pid := "PY-7", partner := 7, amount := 20,
    status := PStatus.processing, paymentMethod := "bank",
    paymentDetails := [], transactionId := none, note := "",
    processedDate := none }

/-- The state around `p7`/`e7`, including the `PayoutReferral` link. -/
def s7 : St :=
  { earnings := [e7], referrals := [], payouts := [p7],
    payoutReferrals := [{ payout := "PY-7", referral := 71, amount := 20 }],
    nextEid := 100 }

/-- A converted referral of partner 1 with a 40-unit available earning. -/
def r1c : Referral :=
  { rid := 101, partner := some 1, status := RStatus.converted,
    potentialCommission := 40, actualCommission := some 40 }

/-- The available earning linked to `r1c`. -/
def e1c : Earnings :=
  { eid := 11, partner := 1, amount := 40, date := 0,
    source := ESource.referral, status := EStatus.available, notes := "",
    referral := some 101, payout := none }

/-- The state around `r1c`/`e1c`. -/
def s1c : St :=
  { earnings := [e1c], referrals := [r1c], payouts := [],
    payoutReferrals := [], nextEid := 12 }

/-- A converted referral of partner 2 with a 30-unit available earning. -/
def r2c : Referral :=
  { rid := 201, partner := some 2, status := RStatus.converted,
    potentialCommission := 30, actualCommission := some 30 }

/-- The available earning linked to `r2c`. -/
def e2c : Earnings :=
  { eid := 21, partner := 2, amount := 30, date := 0,
    source := ESource.referral, status := EStatus.available, notes := "",
    referral := some 201, payout := none }

/-- The state around `r2c`/`e2c`. -/
def s2c : St :=
  { earnings := [e2c], referrals := [r2c], payouts := [],
    payoutReferrals := [], nextEid := 22 }

/-- The payout row created from `s2c` for referral 201. -/
def p2c : Payout :=
  { pid := "PY-2", partner := 2, amount := 30, status := PStatus.pending,
    paymentMethod := "bank", paymentDetails := [], transactionId := none,
    note := "", processedDate := none }

lemma map_congr_mem {α β : Type} (l : List α) (f g : α → β)
    (h : ∀ a ∈ l, f a = g a) : l.map f = l.map g := by
  induction l with
  | nil => rfl
  | cons hd tl ih =>
      simp only [List.map_cons, h hd (List.mem_cons_self hd tl)]
      rw [ih fun a ha => h a (List.mem_cons_of_mem hd ha)]

lemma payoutCreateLoop_total (pid : String)
    (sel : List (Referral × Earnings)) :
    ∀ (es : List Earnings) (prs : List PayoutReferral) (t : Int),
      (payoutCreateLoop es prs pid sel t).2.2 =
        t + (sel.map (fun y => y.2.amount)).sum := by
  induction sel with
  | nil => intro es prs t; simp [payoutCreateLoop]
  | cons hd tl ih =>
      intro es prs t
      obtain ⟨r, e⟩ := hd
      simp only [payoutCreateLoop, ih, List.map_cons, List.sum_cons]
      ring

lemma payoutCreateLoop_prs (pid : String)
    (sel : List (Referral × Earnings)) :
    ∀ (es : List Earnings) (prs : List PayoutReferral) (t : Int),
      (payoutCreateLoop es prs pid sel t).2.1 =
        prs ++ sel.map (fun y =>
          ({ payout := pid, referral := y.1.rid, amount := y.2.amount } :
            PayoutReferral)) := by
  induction sel with
  | nil => intro es prs t; simp [payoutCreateLoop]
  | cons hd tl ih =>
      intro es prs t
      obtain ⟨r, e⟩ := hd
      simp only [payoutCreateLoop, ih, List.map_cons]
      simp

lemma payoutCreateLoop_earnings (pid : String)
    (sel : List (Referral × Earnings)) :
    ∀ (es : List Earnings) (prs : List PayoutReferral) (t : Int),
      (payoutCreateLoop es prs pid sel t).1 =
        es.map (fun x =>
          if x.eid ∈ sel.map (fun y => y.2.eid) then
            { x with status := EStatus.processing, payout := some pid }
          else x) := by
  induction sel with
  | nil =>
      intro es prs t
      simp [payoutCreateLoop]
  | cons hd tl ih =>
      intro es prs t
      obtain ⟨r, e⟩ := hd
      simp only [payoutCreateLoop, ih, List.map_map]
      apply map_congr_mem
      intro x _
      by_cases h1 : x.eid = e.eid
      · by_cases h2 : x.eid ∈ tl.map (fun y => y.2.eid) <;>
          simp [Function.comp, h1, h2]
      · by_cases h2 : x.eid ∈ tl.map (fun y => y.2.eid) <;>
          simp [Function.comp, h1, h2]

lemma payoutCreate_earnings_eq (s : St) (partner : Nat) (method : String)
    (details : List (String × String)) (reqAmount : Int) (ids : List Nat)
    (pid : String) (hids : ids ≠ []) :
    (payoutCreate s partner method details reqAmount ids pid).earnings =
      s.earnings.map (fun x =>
        if x.eid ∈ (selectReferrals s ids).map (fun y => y.2.eid) then
          { x with status := EStatus.processing, payout := some pid }
        else x) := by
  show (if ids = [] then _ else _ : St).earnings = _
  rw [if_neg hids]
  exact payoutCreateLoop_earnings pid (selectReferrals s ids) _ _ _

lemma sum_filter_amount_eq (eids : List Nat) (l : List Earnings)
    (f : Earnings → Earnings)
    (hf : ∀ x, (f x).eid = x.eid ∧ (f x).amount = x.amount) :
    (((l.map f).filter (fun e => e.eid ∈ eids)).map
      (fun e => e.amount)).sum =
    ((l.filter (fun e => e.eid ∈ eids)).map (fun e => e.amount)).sum := by
  induction l with
  | nil => rfl
  | cons hd tl ih =>
      by_cases h : hd.eid ∈ eids <;>
        simp [List.filter_cons, (hf hd).1, (hf hd).2, h, ih]

/-- C1 counterexample: a creation call whose `referral_ids` list is empty
creates no `PayoutReferral` row, yet the payout keeps the client-supplied
amount 999 instead of the sum (0) of the `PayoutReferral` amounts created
in the operation — the `if referral_ids:` guard skips the recomputation. -/
theorem payout_create_empty_ids_keeps_requested_amount :
    (payoutCreate s1c 1 "bank" [] 999 [] "PY-1").payoutReferrals = [] ∧
    (payoutCreate s1c 1 "bank" [] 999 [] "PY-1").payouts.map
      (fun q => q.amount) = [999] ∧
    (999 : Int) ≠ 0 := by
  refine ⟨rfl, rfl, by decide⟩

/-- C1 amended: for a NON-EMPTY `referral_ids` list, payout creation
selects exactly the listed referrals that are `converted` with an
`available` linked earning, creates one `PayoutReferral` per selection
carrying that earning's amount, flips each selected earning to
`processing` linked to the new payout, and sets the payout's amount to the
sum of the amounts so included; with an empty list the payout keeps the
requested amount. -/
theorem payout_create_spec (s : St) (partner : Nat) (method : String)
    (details : List (String × String)) (reqAmount : Int) (ids : List Nat)
    (pid : String) (hids : ids ≠ []) :
    (payoutCreate s partner method details reqAmount ids pid).payoutReferrals =
      s.payoutReferrals ++ (selectReferrals s ids).map (fun y =>
        ({ payout := pid, referral := y.1.rid, amount := y.2.amount } :
          PayoutReferral)) ∧
    (payoutCreate s partner method details reqAmount ids pid).payouts =
      s.payouts ++
        [{ pid := pid, partner := partner,
           amount := ((selectReferrals s ids).map (fun y => y.2.amount)).sum,
           status := PStatus.pending, paymentMethod := method,
           paymentDetails := details, transactionId := none, note := "",
           processedDate := none }] ∧
    (payoutCreate s partner method details reqAmount ids pid).earnings =
      s.earnings.map (fun x =>
        if x.eid ∈ (selectReferrals s ids).map (fun y => y.2.eid) then
          { x with status := EStatus.processing, payout := some pid }
        else x) ∧
    (∀ r e, (r, e) ∈ selectReferrals s ids ↔
      (r ∈ s.referrals ∧ r.rid ∈ ids ∧ r.status = RStatus.converted ∧
        earningFor s r.rid = some e ∧ e.status = EStatus.available)) := by
  refine ⟨?_, ?_, ?_, ?_⟩
  · show (if ids = [] then _ else _ : St).payoutReferrals = _
    rw [if_neg hids]
    exact payoutCreateLoop_prs pid (selectReferrals s ids) _ _ _
  · show (if ids = [] then _ else _ : St).payouts = _
    rw [if_neg hids]
    have htot := payoutCreateLoop_total pid (selectReferrals s ids)
      s.earnings s.payoutReferrals 0
    rw [zero_add] at htot
    exact congrArg (fun a => s.payouts ++
      [{ pid := pid, partner := partner, amount := a,
         status := PStatus.pending, paymentMethod := method,
         paymentDetails := details, transactionId := none, note := "",
         processedDate := none }]) htot
  · show (if ids = [] then _ else _ : St).earnings = _
    rw [if_neg hids]
    exact payoutCreateLoop_earnings pid (selectReferrals s ids) _ _ _
  · intro r e
    constructor
    · intro hmem
      obtain ⟨a, ha, hfa⟩ := List.mem_filterMap.mp hmem
      by_cases hc : a.rid ∈ ids ∧ a.status = RStatus.converted
      · rw [if_pos hc] at hfa
        cases hef : earningFor s a.rid with
        | none => rw [hef] at hfa; simp at hfa
        | some e' =>
            rw [hef] at hfa
            dsimp only at hfa
            by_cases hav : e'.status = EStatus.available
            · rw [if_pos hav] at hfa
              simp only [Option.some.injEq, Prod.mk.injEq] at hfa
              obtain ⟨rfl, rfl⟩ := hfa
              exact ⟨ha, hc.1, hc.2, hef, hav⟩
            · rw [if_neg hav] at hfa; simp at hfa
      · rw [if_neg hc] at hfa; simp at hfa
    · rintro ⟨hr, hid, hst, hef, hes⟩
      refine List.mem_filterMap.mpr ⟨r, hr, ?_⟩
      rw [if_pos ⟨hid, hst⟩, hef]
      dsimp only
      rw [if_pos hes]

/-- C1 witness: Scenario-C-style creation on a concrete state — one
selected referral, one `PayoutReferral` of amount 40, payout amount 40. -/
theorem payout_create_spec_witness :
    (payoutCreate s1c 1 "bank" [] 0 [101] "PY-1").payouts =
      s1c.payouts ++
        [{ pid := "PY-1", partner := 1,
           amount := ((selectReferrals s1c [101]).map
             (fun y => y.2.amount)).sum,
           status := PStatus.pending, paymentMethod := "bank",
           paymentDetails := [], transactionId := none, note := "",
           processedDate := none }] :=
  (payout_create_spec s1c 1 "bank" [] 0 [101] "PY-1" (by decide)).2.1

/-- C2: create a payout from a fresh id over a non-empty referral
selection, move it to `processing`, then cancel it: every earning included
in the payout returns to `available` with its `payout` link set back to
null, per-row amounts are untouched throughout, and the total amount of
the included earnings equals their total before the payout was created. -/
theorem payout_cancel_roundtrip (s : St) (partner : Nat) (method : String)
    (details : List (String × String)) (reqAmount : Int) (ids : List Nat)
    (pid : String) (reason : Option String) (hids : ids ≠ [])
    (hfresh : ∀ e ∈ s.earnings, e.payout ≠ some pid) :
    let sel := selectReferrals s ids
    let p1 : Payout :=
      { pid := pid, partner := partner,
        amount := (sel.map (fun y => y.2.amount)).sum,
        status := PStatus.pending, paymentMethod := method,
        paymentDetails := details, transactionId := none, note := "",
        processedDate := none }
    let st1 := payoutCreate s partner method details reqAmount ids pid
    let st2 := payoutProcess st1 p1
    let st3 := payoutCancel st2 { p1 with status := PStatus.processing }
      reason
    st3.earnings = s.earnings.map (fun x =>
      if x.eid ∈ sel.map (fun y => y.2.eid) then
        { x with status := EStatus.available, payout := none } else x) ∧
    st3.earnings.map (fun e => e.amount) =
      s.earnings.map (fun e => e.amount) ∧
    ((st3.earnings.filter
        (fun e => e.eid ∈ sel.map (fun y => y.2.eid))).map
      (fun e => e.amount)).sum =
    ((s.earnings.filter
        (fun e => e.eid ∈ sel.map (fun y => y.2.eid))).map
      (fun e => e.amount)).sum := by
  intro sel p1 st1 st2 st3
  have h3 : st3.earnings = st1.earnings.map (fun e =>
      if e.payout = some pid ∧ e.status = EStatus.processing then
        { e with status := EStatus.available, payout := none }
      else e) := rfl
  have h1 := payoutCreate_earnings_eq s partner method details reqAmount
    ids pid hids
  have ha : st3.earnings = s.earnings.map (fun x =>
      if x.eid ∈ sel.map (fun y => y.2.eid) then
        { x with status := EStatus.available, payout := none } else x) := by
    rw [h3]
    show (payoutCreate s partner method details reqAmount ids
        pid).earnings.map _ = _
    rw [h1, List.map_map]
    apply map_congr_mem
    intro x hx
    by_cases hm : x.eid ∈ sel.map (fun y => y.2.eid)
    · simp [Function.comp, hm]
    · simp [Function.comp, hm, hfresh x hx]
  refine ⟨ha, ?_, ?_⟩
  · rw [ha, List.map_map]
    apply map_congr_mem
    intro x _
    by_cases hm : x.eid ∈ sel.map (fun y => y.2.eid) <;>
      simp [Function.comp, hm]
  · rw [ha]
    apply sum_filter_amount_eq
    intro x
    by_cases hm : x.eid ∈ sel.map (fun y => y.2.eid) <;> simp [hm]

/-- C2 witness: the concrete round trip on `s2c` leaves the per-row
amounts of all earnings unchanged. -/
theorem payout_cancel_roundtrip_witness :
    (payoutCancel
        (payoutProcess (payoutCreate s2c 2 "bank" [] 0 [201] "PY-2") p2c)
        { p2c with status := PStatus.processing } none).earnings.map
      (fun e => e.amount) =
      s2c.earnings.map (fun e => e.amount) := by
  have h := payout_cancel_roundtrip s2c 2 "bank" [] 0 [201] "PY-2" none
    (by decide) (by decide)
  exact h.2.1

/-- C3: the post_save handler, on a freshly created payout, flips EVERY
`available` earning of the payout's partner to `processing` — also earnings
never selected into the payout — and, on a later save of a payout whose
status is `completed`, flips every `processing` earning of the partner to
`paid`, regardless of which payout each earning is linked to. -/
theorem handle_payout_processing_sweeps (s : St) (p : Payout) :
    (p.status ≠ PStatus.completed →
      (handlePayoutProcessing s p true).earnings =
        s.earnings.map (fun e =>
          if e.partner = p.partner ∧ e.status = EStatus.available then
            { e with status := EStatus.processing } else e)) ∧
    (p.status = PStatus.completed →
      (handlePayoutProcessing s p false).earnings =
        s.earnings.map (fun e =>
          if e.partner = p.partner ∧ e.status = EStatus.processing then
            { e with status := EStatus.paid } else e)) ∧
    (∀ e, e ∈ s.earnings → e.partner = p.partner →
      e.status = EStatus.available → e.payout ≠ some p.pid →
      p.status ≠ PStatus.completed →
      { e with status := EStatus.processing } ∈
        (handlePayoutProcessing s p true).earnings) ∧
    (∀ e, e ∈ s.earnings → e.partner = p.partner →
      e.status = EStatus.processing → e.payout ≠ some p.pid →
      p.status = PStatus.completed →
      { e with status := EStatus.paid } ∈
        (handlePayoutProcessing s p false).earnings) := by
  refine ⟨?_, ?_, ?_, ?_⟩
  · intro h
    simp [handlePayoutProcessing, h]
  · intro h
    simp [handlePayoutProcessing, h]
  · intro e he hp1 hs1 _ h
    have hrw : (handlePayoutProcessing s p true).earnings =
        s.earnings.map (fun e =>
          if e.partner = p.partner ∧ e.status = EStatus.available then
            { e with status := EStatus.processing } else e) := by
      simp [handlePayoutProcessing, h]
    rw [hrw]
    simpa [hp1, hs1] using List.mem_map_of_mem (l := s.earnings)
      (f := fun e =>
        if e.partner = p.partner ∧ e.status = EStatus.available then
          { e with status := EStatus.processing } else e) he
  · intro e he hp1 hs1 _ h
    have hrw : (handlePayoutProcessing s p false).earnings =
        s.earnings.map (fun e =>
          if e.partner = p.partner ∧ e.status = EStatus.processing then
            { e with status := EStatus.paid } else e) := by
      simp [handlePayoutProcessing, h]
    rw [hrw]
    simpa [hp1, hs1] using List.mem_map_of_mem (l := s.earnings)
      (f := fun e =>
        if e.partner = p.partner ∧ e.status = EStatus.processing then
          { e with status := EStatus.paid } else e) he

/-- C3 witness: an available earning linked to a DIFFERENT payout is still
swept to `processing` when `p3` is created. -/
theorem handle_payout_processing_sweeps_witness :
    { e3 with status := EStatus.processing } ∈
      (handlePayoutProcessing s3 p3 true).earnings :=
  (handle_payout_processing_sweeps s3 p3).2.2.1 e3 (by decide) rfl rfl
    (by decide) (by decide)

/-- C4: each of `mark_as_available`, `mark_as_processing`, `mark_as_paid`
succeeds exactly from `pending`, `available`, `processing` respectively; on
success only the claimed fields change (and a payout is linked only when
one is passed), and in every other starting state the function returns
`False` and leaves the earning completely unchanged. -/
theorem earnings_transition_guards (e : Earnings) (pay : Option String) :
    ((e.markAsAvailable.2 = true ↔ e.status = EStatus.pending) ∧
      (e.status = EStatus.pending →
        e.markAsAvailable = ({ e with status := EStatus.available }, true)) ∧
      (e.status ≠ EStatus.pending → e.markAsAvailable = (e, false))) ∧
    (((e.markAsProcessing pay).2 = true ↔ e.status = EStatus.available) ∧
      (e.status = EStatus.available →
        e.markAsProcessing pay =
          ({ e with status := EStatus.processing,
                    payout := match pay with
                      | some p => some p
                      | none => e.payout }, true)) ∧
      (e.status ≠ EStatus.available → e.markAsProcessing pay = (e, false))) ∧
    ((e.markAsPaid.2 = true ↔ e.status = EStatus.processing) ∧
      (e.status = EStatus.processing →
        e.markAsPaid = ({ e with status := EStatus.paid }, true)) ∧
      (e.status ≠ EStatus.processing → e.markAsPaid = (e, false))) := by
  unfold Earnings.markAsAvailable Earnings.markAsProcessing Earnings.markAsPaid
  refine ⟨⟨?_, ?_, ?_⟩, ⟨?_, ?_, ?_⟩, ⟨?_, ?_, ?_⟩⟩ <;>
    split_ifs with h <;> simp_all

/-- C4 witness: the guards evaluated on concrete earnings. -/
theorem earnings_transition_guards_witness :
    ePending.markAsAvailable =
      ({ ePending with status := EStatus.available }, true) ∧
    ePaid.markAsAvailable = (ePaid, false) :=
  ⟨(earnings_transition_guards ePending none).1.2.1 rfl,
   (earnings_transition_guards ePaid none).1.2.2 (by decide)⟩

/-- C5 counterexample: cancelling a `paid` earning is NOT blocked — the
source `Earnings.cancel` carries no status guard, so the status moves to
`cancelled` instead of remaining `paid`. -/
theorem earnings_cancel_from_paid_not_blocked :
    (ePaid.cancel none).1.status = EStatus.cancelled ∧
    ¬ (ePaid.cancel none).1.status = EStatus.paid := by
  decide

/-- C5 amended: `Earnings.cancel` succeeds unconditionally from every
status — including the terminal `paid` — setting the status to `cancelled`
and returning `True`. -/
theorem earnings_cancel_unconditional (e : Earnings) (reason : Option String) :
    (e.cancel reason).1.status = EStatus.cancelled ∧
    (e.cancel reason).2 = true := by
  cases reason <;> exact ⟨rfl, rfl⟩

/-- C6 counterexample: completing `p6` succeeds, yet the earning `e6` —
linked to the payout via `PayoutReferral` AND via `earnings_included`, and
in the defensively-claimed `available` status — is NOT marked `paid`:
`complete_payment` only flips the partner's `processing` earnings. -/
theorem complete_payment_skips_available_linked_earning :
    (match completePayment s6 p6 (some "TX123") 7 with
     | Except.ok t => some (t.earnings.map (fun e => e.status))
     | Except.error _ => none) = some [EStatus.available] ∧
    EStatus.available ≠ EStatus.paid := by
  refine ⟨rfl, by decide⟩

/-- C6 amended: `complete_payment` succeeds exactly from `processing`,
raising `PaymentProcessingError` otherwise with no state change; on success
it sets status `completed`, records `processed_date` and a truthy
`transaction_id` inside `payment_details`, and marks every `processing`
earning OF THE PARTNER as `paid` — irrespective of linkage — while leaving
`available` earnings (linked or not) and other partners' earnings
untouched. -/
theorem complete_payment_spec (s : St) (p : Payout) (tid : Option String)
    (now : Nat) :
    ((∃ t, completePayment s p tid now = Except.ok t) ↔
      p.status = PStatus.processing) ∧
    (p.status ≠ PStatus.processing →
      completePayment s p tid now =
        Except.error "Only processing payouts can be completed") ∧
    (∀ t, completePayment s p tid now = Except.ok t →
      (∀ e, e ∈ s.earnings → e.partner = p.partner →
        e.status = EStatus.processing →
        { e with status := EStatus.paid } ∈ t.earnings) ∧
      (∀ e, e ∈ s.earnings → e.status = EStatus.available →
        e ∈ t.earnings) ∧
      (∀ e, e ∈ s.earnings → e.partner ≠ p.partner → e ∈ t.earnings) ∧
      t.payouts = s.payouts.map (fun q =>
        if q.pid = p.pid then
          { p with status := PStatus.completed,
                   processedDate := some now,
                   paymentDetails :=
                     if strTruthy tid then
                       dictSet p.paymentDetails "transaction_id"
                         (tid.getD "")
                     else p.paymentDetails }
        else q)) := by
  by_cases hp : p.status = PStatus.processing
  · have hok : ∃ t, completePayment s p tid now = Except.ok t := by
      cases hres : completePayment s p tid now with
      | ok t => exact ⟨t, rfl⟩
      | error msg =>
          rw [completePayment, if_neg (by simp [hp])] at hres
          exact absurd hres (by simp)
    refine ⟨⟨fun _ => hp, fun _ => hok⟩, fun hn => absurd hp hn, ?_⟩
    intro t ht
    simp only [completePayment, hp] at ht
    rw [if_neg (by simp)] at ht
    rw [Except.ok.injEq] at ht
    subst ht
    refine ⟨?_, ?_, ?_, ?_⟩
    · intro e he hp1 hs1
      simpa [hp1, hs1] using List.mem_map_of_mem (l := s.earnings)
        (f := fun e =>
          if e.partner = p.partner ∧ e.status = EStatus.processing then
            { e with status := EStatus.paid } else e) he
    · intro e he hs1
      simpa [hs1] using List.mem_map_of_mem (l := s.earnings)
        (f := fun e =>
          if e.partner = p.partner ∧ e.status = EStatus.processing then
            { e with status := EStatus.paid } else e) he
    · intro e he hp1
      simpa [hp1] using List.mem_map_of_mem (l := s.earnings)
        (f := fun e =>
          if e.partner = p.partner ∧ e.status = EStatus.processing then
            { e with status := EStatus.paid } else e) he
    · simp [savePayout]
  · refine ⟨⟨?_, fun h => absurd h hp⟩, fun _ => by
      simp [completePayment, hp], ?_⟩
    · rintro ⟨t, ht⟩
      simp [completePayment, hp] at ht
    · intro t ht
      simp [completePayment, hp] at ht

/-- C6 witness: completing a pending payout is rejected with the
processing-only error. -/
theorem complete_payment_spec_witness :
    completePayment s6 { p6 with status := PStatus.pending }
        (some "TX123") 7 =
      Except.error "Only processing payouts can be completed" :=
  (complete_payment_spec s6 { p6 with status := PStatus.pending }
    (some "TX123") 7).2.1 (by decide)

/-- C7 counterexample: failing `p7` via `fail_payment` returns its linked
earning to `available` but leaves the `payout` link in place (not
unlinked), and `Payout.fail` does not touch the earning at all — so the
linked earning is NOT returned-and-unlinked as the claim states. -/
theorem fail_leaves_earnings_linked :
    (failPayment s7 p7 "gateway timeout" "T0").earnings.map
      (fun e => (e.status, e.payout)) =
      [(EStatus.available, some "PY-7")] ∧
    (payoutFail s7 p7 "gateway timeout").earnings = [e7] ∧
    some "PY-7" ≠ (none : Option String) := by
  refine ⟨rfl, rfl, by decide⟩

/-- C7 amended: `Payout.fail` only marks the payout failed and appends the
error to `note`, leaving every earning untouched; `fail_payment` marks the
payout failed (recording the error in `payment_details`) and returns every
`processing` earning OF THE PARTNER to `available` while KEEPING its
`payout` link; earnings of other partners are untouched. -/
theorem fail_operations_spec (s : St) (p : Payout) (msg nowIso : String) :
    (payoutFail s p msg).earnings = s.earnings ∧
    (payoutFail s p msg).payouts = s.payouts.map (fun q =>
      if q.pid = p.pid then
        { p with status := PStatus.failed,
                 note := p.note ++ "\nError: " ++ msg }
      else q) ∧
    (failPayment s p msg nowIso).earnings = s.earnings.map (fun e =>
      if e.partner = p.partner ∧ e.status = EStatus.processing then
        { e with status := EStatus.available } else e) ∧
    (∀ e, e ∈ s.earnings → e.partner = p.partner →
      e.status = EStatus.processing →
      { e with status := EStatus.available, payout := e.payout } ∈
        (failPayment s p msg nowIso).earnings) ∧
    (∀ e, e ∈ s.earnings → e.partner ≠ p.partner →
      e ∈ (failPayment s p msg nowIso).earnings) := by
  have hrw : (failPayment s p msg nowIso).earnings =
      s.earnings.map (fun e =>
        if e.partner = p.partner ∧ e.status = EStatus.processing then
          { e with status := EStatus.available } else e) := rfl
  refine ⟨rfl, by simp [payoutFail, savePayout], rfl, ?_, ?_⟩
  · intro e he hp1 hs1
    rw [hrw]
    refine List.mem_map.mpr ⟨e, he, ?_⟩
    simp [hp1, hs1]
  · intro e he hp1
    rw [hrw]
    refine List.mem_map.mpr ⟨e, he, ?_⟩
    simp [hp1]

/-- C7 witness: the concrete linked processing earning comes back
`available` with its `payout` link still set. -/
theorem fail_operations_spec_witness :
    { e7 with status := EStatus.available, payout := e7.payout } ∈
      (failPayment s7 p7 "gateway timeout" "T0").earnings :=
  (fail_operations_spec s7 p7 "gateway timeout" "T0").2.2.2.1 e7
    (by decide) rfl rfl

/-- C8 counterexample: on the Scenario-F input three bank fields are
missing (as the payout-creation validator shows), yet
`PayoutSettingSerializer.validate_payment_details` raises at the FIRST
missing field and its error names only `account_name` — not all three. -/
theorem setting_bank_reports_first_missing_only :
    settingValidateDetails "bank" bankOnlyAcct =
      Except.error (SettingErr.bankField "account_name") ∧
    (SettingErr.bankField "account_name").fieldsMentioned =
      ["account_name"] ∧
    createValidateDetails "bank" bankOnlyAcct =
      Except.error ("bank", ["bank_name", "account_name",
        "routing_number"]) ∧
    ¬ (["account_name"] : List String) =
        ["bank_name", "account_name", "routing_number"] := by
  refine ⟨rfl, rfl, rfl, by decide⟩

/-- C8 amended: the payout-CREATION validator collects and reports EVERY
missing required field but silently accepts a method string outside its
table, while the payout-SETTING validator rejects unrecognized methods with
an `unsupported` error but reports only the FIRST missing bank field. -/
theorem payment_details_validators_spec :
    (∀ m req d, requiredFields m = some req →
      (let v := normalizeDetails d
       let missing := req.filter (fun f => blankAt v f)
       (missing = [] → createValidateDetails m d = Except.ok v) ∧
       (missing ≠ [] →
          createValidateDetails m d = Except.error (m, missing)))) ∧
    (∀ m d, requiredFields m = none →
      createValidateDetails m d = Except.ok (normalizeDetails d)) ∧
    (∀ d f,
      ["account_name", "account_number", "routing_number",
        "bank_name"].find? (fun g => blankAt (normalizeDetails d) g) =
          some f →
      settingValidateDetails "bank" d =
        Except.error (SettingErr.bankField f)) ∧
    (∀ m d, m ≠ "" → m ≠ "paypal" → m ≠ "bank" → m ≠ "mpesa" →
      m ≠ "stripe" → m ≠ "crypto" →
      settingValidateDetails m d =
        Except.error (SettingErr.unsupported m)) := by
  refine ⟨?_, ?_, ?_, ?_⟩
  · intro m req d hreq
    refine ⟨?_, ?_⟩ <;> intro hmiss <;>
      simp [createValidateDetails, hreq, hmiss]
  · intro m d hreq
    simp [createValidateDetails, hreq]
  · intro d f hfind
    simp [settingValidateDetails, hfind]
  · intro m d h0 h1 h2 h3 h4 h5
    simp [settingValidateDetails, h0, h1, h2, h3, h4, h5]

/-- C8 witness: the creation validator lists all three missing bank fields
on the Scenario-F input; the setting validator rejects an unknown method. -/
theorem payment_details_validators_spec_witness :
    createValidateDetails "bank" bankOnlyAcct =
      Except.error ("bank", ["bank_name", "account_name",
        "routing_number"]) ∧
    settingValidateDetails "venmo" [] =
      Except.error (SettingErr.unsupported "venmo") := by
  refine ⟨?_, ?_⟩
  · exact (payment_details_validators_spec.1 "bank" _ bankOnlyAcct
      rfl).2 (by decide)
  · exact payment_details_validators_spec.2.2.2 "venmo" [] (by decide)
      (by decide) (by decide) (by decide) (by decide) (by decide)

/-- C9: for a converted referral with a partner and a set
`actual_commission`, `create_earning` creates exactly one row — with
`source='referral'`, `amount=actual_commission` and status `available` iff
the amount is positive — and a second call is a no-op, leaving exactly one
earnings row for the referral. -/
theorem create_earning_idempotent (s : St) (r : Referral) (today : Nat)
    (p : Nat) (a : Int)
    (_hconv : r.status = RStatus.converted)
    (hnone : s.earnings.any (fun e => e.referral = some r.rid) = false)
    (hp : r.partner = some p) (ha : r.actualCommission = some a) :
    (createEarning s r today).2 = some (freshEarningRow s r today p a) ∧
    (createEarning s r today).1.earnings =
      s.earnings ++ [freshEarningRow s r today p a] ∧
    createEarning (createEarning s r today).1 r today =
      ((createEarning s r today).1, none) ∧
    ((createEarning s r today).1.earnings.filter
        (fun e => e.referral = some r.rid)).length = 1 := by
  have hfil : s.earnings.filter (fun e => e.referral = some r.rid) = [] := by
    rw [List.filter_eq_nil_iff]
    intro x hx
    have := (List.any_eq_false).mp hnone x hx
    simpa using this
  refine ⟨?_, ?_, ?_, ?_⟩ <;>
    simp [createEarning, hnone, hp, ha, freshEarningRow, hfil,
      List.filter_append]

/-- C9 witness: both calls evaluated on a concrete converted referral. -/
theorem create_earning_idempotent_witness :
    createEarning (createEarning st0 r9 3).1 r9 3 =
      ((createEarning st0 r9 3).1, none) ∧
    ((createEarning st0 r9 3).1.earnings.filter
        (fun e => e.referral = some 9)).length = 1 :=
  ⟨(create_earning_idempotent st0 r9 3 1 50 rfl rfl rfl rfl).2.2.1,
   (create_earning_idempotent st0 r9 3 1 50 rfl rfl rfl rfl).2.2.2⟩

/-- C10 counterexample: `actual_commission` locked to the value 0 at
conversion IS overwritten by a later save — `not self.actual_commission` is
true for `Decimal('0')`, so a save after `potential_commission` changed to
5 rewrites the already-set `actual_commission`. -/
theorem actual_commission_zero_overwritten :
    (referralSave st0 r10 0).2.actualCommission = some 0 ∧
    (referralSave (referralSave st0 r10 0).1
        { (referralSave st0 r10 0).2 with potentialCommission := 5 }
        0).2.actualCommission = some 5 ∧
    some (5 : Int) ≠ some (0 : Int) := by
  decide

/-- C10 amended: on save, `actual_commission` is assigned
`potential_commission` whenever the status is `converted` and the current
`actual_commission` is `None` OR zero (Python falsiness); a NONZERO
`actual_commission` is never overwritten, and no assignment happens outside
`converted`. -/
theorem actual_commission_lock_spec (s : St) (r : Referral) (today : Nat) :
    (∀ a : Int, r.actualCommission = some a → a ≠ 0 →
      (referralSave s r today).2.actualCommission = some a) ∧
    (r.status = RStatus.converted →
      (r.actualCommission = none ∨ r.actualCommission = some 0) →
      (referralSave s r today).2.actualCommission =
        some r.potentialCommission) ∧
    (r.status ≠ RStatus.converted →
      (referralSave s r today).2.actualCommission = r.actualCommission) := by
  have h2 : (referralSave s r today).2 = lockActualCommission r := by
    unfold referralSave
    by_cases hc : (lockActualCommission r).status = RStatus.converted <;>
      simp [hc]
  rw [h2]
  unfold lockActualCommission
  split_ifs with h
  · refine ⟨?_, ?_, ?_⟩
    · intro a ha hz
      rcases h.2 with h0 | h0 <;> rw [ha] at h0 <;> simp_all
    · intro _ _
      rfl
    · intro hnc
      exact absurd h.1 hnc
  · refine ⟨?_, ?_, ?_⟩
    · intro a ha _
      exact ha
    · intro hcv hfals
      exact absurd ⟨hcv, hfals⟩ h
    · intro _
      rfl

/-- C10 witness: a nonzero locked commission survives a save. -/
theorem actual_commission_lock_spec_witness :
    (referralSave st0 r9 0).2.actualCommission = some 50 :=
  (actual_commission_lock_spec st0 r9 0).1 50 rfl (by decide)

end AffiliateOS
